import Mathlib

/-!
Shallow embedding of `src/CurrentMeter.ino` (Arduino Nano firmware: ADS1115
current meter).  The firmware's global mutable state is modelled as an explicit
state structure threaded through pure step functions:

* `accum` / `processSample` embed the `gotADCValue` branch of `loop()`
  (lines 159-193): one call corresponds to one main-loop iteration that
  observed the ready flag, read one ADC code, and aggregated it.
* `completeWindow` embeds the window-completion block (lines 167-192).
* `Print_Data` embeds the log-record construction (lines 325-336); the record
  is modelled by its five field values (string padding is abstracted away).
* `handleCommand` embeds the `switch(cmdChar)` command dispatcher
  (lines 196-286); serial output is modelled as a list of `Event`s.
* `setup` embeds `setup()` (lines 103-148) acting on an EEPROM content.

Machine-arithmetic notes: on the AVR target `int` is 16-bit and `long` is
32-bit.  ADC codes are 16-bit signed; a window sums `nSample = 430` of them,
so `|ADCValSum| ≤ 430 * 32768 < 2^31` and `|ADCValSum + ADCOffset| < 2^31`
whenever `ADCOffset` was captured from a window sum, hence the `long`
accumulations never overflow and are modelled as `Int`.  C `long / int`
division truncates toward zero and is modelled by `Int.tdiv` (t-division).
C `float` quantities are modelled exactly as `Rat`; the claims under study
concern the symbolic structure of the computations, not rounding.
-/

namespace CurrentMeter

/-- Constant `FSR2 = 4.096` — the selected full-scale voltage (line 45). -/
def FSR2 : Rat := 4096 / 1000

/-- Default `VFull = FSR2` (line 68). -/
def VFull : Rat := FSR2

/-- Constant `ADCFull = 32767` — 15-bit ADC full-scale code (line 58). -/
def ADCFull : Rat := 32767

/-- Default `nSample = 430` — samples per window (line 71). -/
def nSample : Nat := 430

/-- Constant `EEPROMFlag = 12345` — sentinel marking the EEPROM as programmed (line 92). -/
def EEPROMFlag : Int := 12345

/-! EEPROM address layout (lines 92-95).  On the AVR target
`sizeof(int) = 2`, `sizeof(float) = 4`, `sizeof(long) = 4`. -/

def sizeofInt : Nat := 2
def sizeofFloat : Nat := 4
def sizeofLong : Nat := 4

/-- Address `EEPROMProgrammedFlagAddr = 0` (line 93). -/
def EEPROMProgrammedFlagAddr : Nat := 0

/-- Address `ADCCalAddr = EEPROMProgrammedFlagAddr + sizeof(EEPROMFlag)` (line 94);
`EEPROMFlag` is an `int`. -/
def ADCCalAddr : Nat := EEPROMProgrammedFlagAddr + sizeofInt

/-- Address `ADCOffsetAddr = ADCCalAddr + sizeof(ADCCal)` (line 95); `ADCCal` is a
`float`. -/
def ADCOffsetAddr : Nat := ADCCalAddr + sizeofFloat

/-- The persistent store, viewed through the three typed cells the firmware
uses (`EEPROM.get`/`EEPROM.put` at the three addresses above, which theorem
`eeprom_layout` shows are disjoint and sequential). -/
structure EEPROM where
  flag : Int
  cal : Rat
  offset : Int
deriving Repr, DecidableEq

/-- The window-aggregation globals `ADCValSum`, `sample`, `ADCHigh`, `ADCLow`
(lines 76-80). -/
structure Window where
  sum : Int
  count : Nat
  high : Int
  low : Int
deriving Repr, DecidableEq

/-- Window state at the start of a fresh window: `ADCValSum = 0`, `sample = 0`,
`ADCHigh = -32768`, `ADCLow = 32767` (lines 132-133 and 188-191). -/
def initWindow : Window :=
  { sum := 0, count := 0, high := -32768, low := 32767 }

/-- One aggregation step (lines 163-166): update extrema, add the reading to
the running sum, bump the sample counter. -/
def accum (w : Window) (v : Int) : Window :=
  { sum := w.sum + v
    count := w.count + 1
    high := if v > w.high then v else w.high
    low := if v < w.low then v else w.low }

/-- One log record of `Print_Data` (lines 325-336), modelled by its five
comma-separated field values in emission order; the `%6d` / `%8.4f` string
padding is abstracted away. -/
structure LogRecord where
  meanField : Int
  amps : Rat
  high : Rat
  low : Rat
  delta : Rat
deriving Repr, DecidableEq

/-- Serial output and side effects of the command dispatcher, in emission
order. -/
inductive Event where
  | prompt
  | newlineOut
  | version
  | menuTip
  | echo (c : Int)
  | printableEcho (c : Int)
  | byteEcho (c : Int)
  | line (t : String)
  | kickADC
  | params
deriving Repr, DecidableEq

/-- The firmware's global mutable state (lines 64-95), as one structure. -/
structure MeterState where
  ADCVal : Int
  win : Window
  ADCVal0 : Int
  Amps : Rat
  displayed : Rat
  negLED : Bool
  VScale : Rat
  ADCCal : Rat
  ADCOffset : Int
  fADCOffset : Rat
  SerialDisplay : Bool
  eeprom : EEPROM
deriving Repr, DecidableEq

/-- Function `Print_Data()` (lines 325-336), evaluated on the state at the call site:
`ADCValSum/sample`, `Amps`, `VScale*(ADCHigh+fADCOffset)`,
`VScale*(ADCLow+fADCOffset)`, and their difference. -/
def Print_Data (s : MeterState) : LogRecord :=
  { meanField := Int.tdiv s.win.sum (s.win.count : Int)
    amps := s.Amps
    high := s.VScale * ((s.win.high : Rat) + s.fADCOffset)
    low := s.VScale * ((s.win.low : Rat) + s.fADCOffset)
    delta := s.VScale * ((s.win.high : Rat) + s.fADCOffset) -
             s.VScale * ((s.win.low : Rat) + s.fADCOffset) }

/-- The window-completion block (lines 167-192): save the raw sum into
`ADCVal0`, fold the offset into `ADCValSum`, compute `Amps` with `long`
t-division, drive the display and sign LED, optionally emit a log record,
then reset the window.  Returns the log record when `SerialDisplay` is on. -/
def completeWindow (s : MeterState) : MeterState × Option LogRecord :=
  let s := { s with ADCVal0 := s.win.sum }
  let s := { s with win := { s.win with sum := s.win.sum + s.ADCOffset } }
  let amps := s.VScale * ((Int.tdiv s.win.sum (s.win.count : Int) : Int) : Rat)
  let s := { s with
    Amps := amps
    displayed := if amps < 0 then -amps else amps
    negLED := decide (amps < 0) }
  let r := if s.SerialDisplay then some (Print_Data s) else none
  let s := { s with win := initWindow }
  (s, r)

/-- The `gotADCValue` branch of `loop()` (lines 159-193) for one observed
ready flag: read the latest code, aggregate it, and when the window reaches
`nSample` hand off the completed window (its pre-offset sum, count and
extrema) together with the optional log record. -/
def processSample (s : MeterState) (v : Int) :
    MeterState × Option (Window × Option LogRecord) :=
  let s := { s with ADCVal := v, win := accum s.win v }
  if s.win.count ≥ nSample then
    let w := s.win
    let p := completeWindow s
    (p.1, some (w, p.2))
  else
    (s, none)

/-- Iterate `processSample` over a list of raw codes, one per ready-flag
observation, collecting the completed-window hand-offs in order. -/
def runSamples : MeterState → List Int →
    MeterState × List (Window × Option LogRecord)
  | s, [] => (s, [])
  | s, v :: vs =>
    match processSample s v with
    | (s1, none) => runSamples s1 vs
    | (s1, some c) =>
      let p := runSamples s1 vs
      (p.1, c :: p.2)

/-- Modelled from the spec: `getFloat(&aflt, bound)` is declared in a library
that is not part of this repository's sources; per the spec (section 4.2) it
reads a numeric token and returns a positive status exactly when the token
parses as a number within the accepted magnitude bound (10000 at the call
site), storing the parsed value.  The token is modelled as `Option Rat`
(`none` = parse failure). -/
def getFloat (tok : Option Rat) (bound : Rat) : Int × Rat :=
  match tok with
  | none => (0, 0)
  | some v => if bound < |v| then (0, v) else (1, v)

/-- Function `Set_Scale()` (lines 360-378): read a scale factor via `getFloat`; on
success (`ier > 0`) store it to `ADCCal`, write it through to EEPROM and
recompute `VScale`; otherwise report that the scale factor was not updated. -/
def Set_Scale (s : MeterState) (tok : Option Rat) : MeterState × List Event :=
  let p := getFloat tok 10000
  if p.1 > 0 then
    ({ s with
        ADCCal := p.2
        eeprom := { s.eeprom with cal := p.2 }
        VScale := p.2 * VFull / ADCFull },
     [Event.line "Enter scale factor", Event.line "Scale factor (ADCCal) = "])
  else
    (s, [Event.line "Enter scale factor",
         Event.line "Scale factor not updated = "])

/-- Function `Display_Header()` (lines 312-320), a function of the current
`SerialDisplay` flag. -/
def Display_Header (sd : Bool) : List Event :=
  (if !sd then [Event.line "=======,   ====   ,   ====   ,   ===    ,   ====="]
   else [Event.newlineOut]) ++
  [Event.line "ADC nom,   Amps   ,   High   ,   Low    ,   Delta"] ++
  (if sd then [Event.line "=======,   ====   ,   ====   ,   ===    ,   ====="]
   else [])

/-- Command bytes handled by a dedicated `case` of the dispatcher
(lines 200-283); everything else falls to the `default` arm. -/
def recognizedCmd (c : Int) : Bool :=
  c = 13 || c = 10 || c = 63 || c = 47 || c = 72 || c = 104 ||
  c = 71 || c = 103 || c = 75 || c = 107 || c = 41 || c = 33 ||
  c = 79 || c = 111 || c = 80 || c = 112 || c = 83 || c = 115

/-- The help-menu lines of the `?`/`/`/`H`/`h` arm (lines 214-221). -/
def helpLines : List Event :=
  [Event.line "H - Display this help menu",
   Event.line "G - Set gain (scale factor)",
   Event.line "! (shift 1) - Set gain to 1.0",
   Event.line "O - Capture offset",
   Event.line ") (shift 0) - Set offset to 0",
   Event.line "P - Display Parameters",
   Event.line "S - Toggle serial logging",
   Event.line "K - Kick the ADC if it's not running"]

/-- The `switch(cmdChar)` dispatcher (lines 200-283).  `c` is the command
byte; `tok` is the numeric token subsequently read by the blocking
scale-factor sub-dialog (only consulted by the `G`/`g` arm). -/
def handleCommand (s : MeterState) (c : Int) (tok : Option Rat) :
    MeterState × List Event :=
  if c = 13 ∨ c = 10 then
    (s, [Event.newlineOut, Event.version, Event.menuTip, Event.prompt])
  else if c = 63 ∨ c = 47 ∨ c = 72 ∨ c = 104 then
    (s, [Event.echo c] ++ helpLines ++ [Event.prompt])
  else if c = 71 ∨ c = 103 then
    let p := Set_Scale s tok
    (p.1, [Event.echo c] ++ p.2 ++ [Event.prompt])
  else if c = 75 ∨ c = 107 then
    (s, [Event.echo c, Event.kickADC, Event.line "Kicked ADC.", Event.prompt])
  else if c = 41 then
    ({ s with
        ADCOffset := 0
        eeprom := { s.eeprom with offset := 0 }
        fADCOffset := ((0 : Int) : Rat) / (nSample : Rat) },
     [Event.echo c, Event.line "Offset set to zero.", Event.prompt])
  else if c = 33 then
    ({ s with
        ADCCal := 1
        eeprom := { s.eeprom with cal := 1 }
        VScale := 1 * VFull / ADCFull },
     [Event.echo c, Event.line "Gain set to one.", Event.prompt])
  else if c = 79 ∨ c = 111 then
    ({ s with
        ADCOffset := -s.ADCVal0
        eeprom := { s.eeprom with offset := -s.ADCVal0 }
        fADCOffset := ((-s.ADCVal0 : Int) : Rat) / (nSample : Rat) },
     [Event.echo c, Event.line "Offset captured and saved.", Event.prompt])
  else if c = 80 ∨ c = 112 then
    (s, [Event.echo c, Event.params, Event.prompt])
  else if c = 83 ∨ c = 115 then
    let s := { s with SerialDisplay := !s.SerialDisplay }
    (s, Display_Header s.SerialDisplay)
  else
    (s, (if 32 < c ∧ c < 127 then [Event.printableEcho c]
         else [Event.byteEcho c]) ++ [Event.line " ??", Event.prompt])

/-- The C++ zero-initialized globals as they stand when `setup()` starts
(lines 64-95 declare them with no initializer), paired with the EEPROM device
content `e`. -/
def initGlobals (e : EEPROM) : MeterState :=
  { ADCVal := 0
    win := { sum := 0, count := 0, high := 0, low := 0 }
    ADCVal0 := 0
    Amps := 0
    displayed := 0
    negLED := false
    VScale := 0
    ADCCal := 0
    ADCOffset := 0
    fADCOffset := 0
    SerialDisplay := false
    eeprom := e }

/-- Function `setup()` (lines 103-148) acting on EEPROM content `e`: if the programmed
sentinel is absent, write the sentinel, `ADCOffset = 0` and `ADCCal = 1.0`
through to the store; then read the calibration fields back, derive
`fADCOffset` and `VScale`, and initialize `ADCHigh`/`ADCLow`. -/
def setup (e : EEPROM) : MeterState :=
  let e2 := if e.flag ≠ EEPROMFlag
    then { flag := EEPROMFlag, cal := 1, offset := 0 }
    else e
  { initGlobals e2 with
      ADCOffset := e2.offset
      fADCOffset := (e2.offset : Rat) / (nSample : Rat)
      ADCCal := e2.cal
      VScale := e2.cal * VFull / ADCFull
      win := { sum := 0, count := 0, high := -32768, low := 32767 } }

/-- The amps value computed at window completion (line 171):
`VScale * ((ADCValSum + ADCOffset) / sample)` with C t-division. -/
def cwAmps (s : MeterState) : Rat :=
  s.VScale * ((Int.tdiv (s.win.sum + s.ADCOffset) (s.win.count : Int) : Int) : Rat)

/-- The log record emitted at window completion, as a function of the state
entering the completion block (the `Print_Data` fields after line 170 has
folded the offset into the sum). -/
def cwRecord (s : MeterState) : LogRecord :=
  { meanField := Int.tdiv (s.win.sum + s.ADCOffset) (s.win.count : Int)
    amps := cwAmps s
    high := s.VScale * ((s.win.high : Rat) + s.fADCOffset)
    low := s.VScale * ((s.win.low : Rat) + s.fADCOffset)
    delta := s.VScale * ((s.win.high : Rat) + s.fADCOffset) -
             s.VScale * ((s.win.low : Rat) + s.fADCOffset) }

/-! ### Helper lemmas -/

lemma completeWindow_eq (s : MeterState) :
    completeWindow s =
      ({ s with
          ADCVal0 := s.win.sum
          win := initWindow
          Amps := cwAmps s
          displayed := if cwAmps s < 0 then -(cwAmps s) else cwAmps s
          negLED := decide (cwAmps s < 0) },
       if s.SerialDisplay then some (cwRecord s) else none) := rfl

lemma processSample_complete (s : MeterState) (v : Int)
    (hc : s.win.count + 1 = nSample) :
    processSample s v =
      ((completeWindow { s with ADCVal := v, win := accum s.win v }).1,
       some (accum s.win v,
             (completeWindow { s with ADCVal := v, win := accum s.win v }).2)) := by
  have h : (accum s.win v).count ≥ nSample := by simp [accum]; omega
  simp [processSample, h]

lemma processSample_open (s : MeterState) (v : Int)
    (hc : s.win.count + 1 < nSample) :
    processSample s v = ({ s with ADCVal := v, win := accum s.win v }, none) := by
  have h : ¬ (accum s.win v).count ≥ nSample := by simp [accum]; omega
  simp [processSample, h]

lemma accum_high_eq_max (w : Window) (v : Int) :
    (accum w v).high = max w.high v := by
  simp only [accum]
  rcases lt_or_le w.high v with h | h
  · rw [if_pos h, max_eq_right h.le]
  · rw [if_neg (not_lt.mpr h), max_eq_left h]

lemma accum_low_eq_min (w : Window) (v : Int) :
    (accum w v).low = min w.low v := by
  simp only [accum]
  rcases lt_or_le v w.low with h | h
  · rw [if_pos h, min_eq_right h.le]
  · rw [if_neg (not_lt.mpr h), min_eq_left h]

lemma foldl_accum_spec (vs : List Int) : ∀ w : Window,
    (List.foldl accum w vs).sum = w.sum + vs.sum ∧
    (List.foldl accum w vs).count = w.count + vs.length ∧
    (List.foldl accum w vs).high = List.foldl max w.high vs ∧
    (List.foldl accum w vs).low = List.foldl min w.low vs := by
  induction vs with
  | nil => intro w; simp
  | cons v vs ih =>
    intro w
    obtain ⟨h1, h2, h3, h4⟩ := ih (accum w v)
    refine ⟨?_, ?_, ?_, ?_⟩
    · rw [List.foldl_cons, h1]; simp [accum, List.sum_cons]; ring
    · rw [List.foldl_cons, h2]; simp [accum]; omega
    · rw [List.foldl_cons, h3, accum_high_eq_max, List.foldl_cons]
    · rw [List.foldl_cons, h4, accum_low_eq_min, List.foldl_cons]

lemma foldl_max_bounds (vs : List Int) : ∀ a : Int,
    a ≤ List.foldl max a vs ∧ ∀ v ∈ vs, v ≤ List.foldl max a vs := by
  induction vs with
  | nil => intro a; simp
  | cons v vs ih =>
    intro a
    obtain ⟨h1, h2⟩ := ih (max a v)
    refine ⟨le_trans (le_max_left a v) h1, ?_⟩
    intro x hx
    rcases List.mem_cons.mp hx with rfl | hx
    · exact le_trans (le_max_right a x) h1
    · exact h2 x hx

lemma foldl_max_mem (vs : List Int) : ∀ a : Int,
    List.foldl max a vs = a ∨ List.foldl max a vs ∈ vs := by
  induction vs with
  | nil => intro a; simp
  | cons v vs ih =>
    intro a
    rcases ih (max a v) with h | h
    · rcases max_choice a v with hm | hm
      · left; rw [List.foldl_cons, h, hm]
      · right; rw [List.foldl_cons, h, hm]; exact List.mem_cons_self v vs
    · right; exact List.mem_cons_of_mem v h

lemma foldl_min_bounds (vs : List Int) : ∀ a : Int,
    List.foldl min a vs ≤ a ∧ ∀ v ∈ vs, List.foldl min a vs ≤ v := by
  induction vs with
  | nil => intro a; simp
  | cons v vs ih =>
    intro a
    obtain ⟨h1, h2⟩ := ih (min a v)
    refine ⟨le_trans h1 (min_le_left a v), ?_⟩
    intro x hx
    rcases List.mem_cons.mp hx with rfl | hx
    · exact le_trans h1 (min_le_right a x)
    · exact h2 x hx

lemma foldl_min_mem (vs : List Int) : ∀ a : Int,
    List.foldl min a vs = a ∨ List.foldl min a vs ∈ vs := by
  induction vs with
  | nil => intro a; simp
  | cons v vs ih =>
    intro a
    rcases ih (min a v) with h | h
    · rcases min_choice a v with hm | hm
      · left; rw [List.foldl_cons, h, hm]
      · right; rw [List.foldl_cons, h, hm]; exact List.mem_cons_self v vs
    · right; exact List.mem_cons_of_mem v h

lemma runSamples_single_completion (vs : List Int) : ∀ s : MeterState,
    s.win.count + vs.length = nSample → vs ≠ [] →
    (runSamples s vs).2.map Prod.fst = [List.foldl accum s.win vs] := by
  induction vs with
  | nil => intro s _ hne; exact absurd rfl hne
  | cons v vs ih =>
    intro s hcount _
    by_cases hvs : vs = []
    · subst hvs
      have hc : s.win.count + 1 = nSample := by simpa using hcount
      rw [runSamples, processSample_complete s v hc]
      simp [runSamples]
    · have hc : s.win.count + 1 < nSample := by
        have : 0 < vs.length := List.length_pos.mpr hvs
        simp [List.length_cons] at hcount
        omega
      rw [runSamples, processSample_open s v hc]
      have := ih { s with ADCVal := v, win := accum s.win v }
        (by simp [accum, List.length_cons] at hcount ⊢; omega) hvs
      simpa [List.foldl_cons] using this

lemma prompt_not_in_header (b : Bool) : Event.prompt ∉ Display_Header b := by
  cases b <;> decide

lemma getLast_append_concat (l1 l2 : List Event) (a : Event) :
    (l1 ++ (l2 ++ [a])).getLast? = some a := by
  rw [← List.append_assoc]
  exact List.getLast?_concat _

/-! ### Concrete fixtures for witnesses -/

/-- A programmed EEPROM content (sentinel present, default calibration). -/
def testEEPROM : EEPROM := { flag := 12345, cal := 1, offset := 0 }

/-- The state right after booting from `testEEPROM`. -/
def baseState : MeterState := setup testEEPROM

/-! ### Claims -/

/-- C3 counterexample: the claimed sequential layout
`[programmedFlag: int][offset: long][scaleFactor: float]` is false for the
addresses computed on lines 93-95: the offset is not stored immediately after
the programmed flag (`ADCOffsetAddr = 6`, while the address right after the
flag is `0 + sizeof(int) = 2`). -/
theorem eeprom_layout_claim_false :
    ¬ (ADCOffsetAddr = EEPROMProgrammedFlagAddr + sizeofInt ∧
       ADCCalAddr = ADCOffsetAddr + sizeofLong) := by
  decide

/-- C3 (amended): the persistent store uses the fixed sequential byte layout
`[programmedFlag: int][scaleFactor: float][offset: long]`: the scale factor
is stored at the address immediately after the programmed flag, and the
offset is stored after the scale factor (flag at 0, scale factor at 2,
offset at 6 on the AVR target). -/
theorem eeprom_layout :
    ADCCalAddr = EEPROMProgrammedFlagAddr + sizeofInt ∧
    ADCOffsetAddr = ADCCalAddr + sizeofFloat ∧
    EEPROMProgrammedFlagAddr = 0 ∧ ADCCalAddr = 2 ∧ ADCOffsetAddr = 6 := by
  decide

/-- C8: between loop iterations the sample count stays in `[0, nSample)`:
a step from a state with `count < nSample` again yields `count < nSample`;
the step that reaches `nSample` consumes the window and resets it to
`initWindow` (sum 0, count 0, max `-32768`, min `32767`); and the first
sample `w` of a fresh window (any representable 16-bit code) becomes both
extrema. -/
theorem window_invariant (s : MeterState) (v w : Int)
    (hcount : s.win.count < nSample) (hlo : -32768 ≤ w) (hhi : w ≤ 32767) :
    (processSample s v).1.win.count < nSample ∧
    (s.win.count + 1 = nSample → (processSample s v).1.win = initWindow) ∧
    (accum initWindow w).high = w ∧ (accum initWindow w).low = w := by
  refine ⟨?_, ?_, ?_, ?_⟩
  · by_cases hc : s.win.count + 1 = nSample
    · rw [processSample_complete s v hc, completeWindow_eq]
      simp [initWindow, nSample]
    · have hlt : s.win.count + 1 < nSample := by omega
      rw [processSample_open s v hlt]
      simpa [accum] using hlt
  · intro hc
    rw [processSample_complete s v hc, completeWindow_eq]
  · simp only [accum, initWindow]; split <;> omega
  · simp only [accum, initWindow]; split <;> omega

/-- C8 witness: the invariant applied to the freshly booted state and the
boundary sample `-32768`. -/
theorem window_invariant_witness :
    baseState.win.count < nSample ∧ (-32768 : Int) ≤ -32768 ∧
    (-32768 : Int) ≤ 32767 ∧
    ((processSample baseState 3).1.win.count < nSample ∧
     (baseState.win.count + 1 = nSample →
       (processSample baseState 3).1.win = initWindow) ∧
     (accum initWindow (-32768)).high = -32768 ∧
     (accum initWindow (-32768)).low = -32768) :=
  ⟨by decide, by decide, by decide,
   window_invariant baseState 3 (-32768) (by decide) (by decide) (by decide)⟩

/-- C6: the capture-offset command (`O`/`o`, lines 255-263) sets
`ADCOffset = -ADCVal0`, writes it through to the EEPROM offset cell, and
recomputes the per-sample offset `fADCOffset = ADCOffset / nSample`; and
`ADCVal0` is always the raw (pre-offset) sum of the most recently completed
window (line 169). -/
theorem captureOffset_correct (s : MeterState) (c : Int) (tok : Option Rat)
    (h : c = 79 ∨ c = 111) :
    (handleCommand s c tok).1.ADCOffset = -s.ADCVal0 ∧
    (handleCommand s c tok).1.eeprom.offset = -s.ADCVal0 ∧
    (handleCommand s c tok).1.fADCOffset =
      ((-s.ADCVal0 : Int) : Rat) / (nSample : Rat) ∧
    ∀ t : MeterState, (completeWindow t).1.ADCVal0 = t.win.sum := by
  rcases h with rfl | rfl <;>
    exact ⟨by simp [handleCommand], by simp [handleCommand],
           by simp [handleCommand], fun t => by rw [completeWindow_eq]⟩

/-- C6 witness: capturing the offset on a state whose last raw window sum was
`1234`. -/
theorem captureOffset_correct_witness :
    ((79 : Int) = 79 ∨ (79 : Int) = 111) ∧
    ((handleCommand { baseState with ADCVal0 := 1234 } 79 none).1.ADCOffset =
        -(1234 : Int) ∧
     (handleCommand { baseState with ADCVal0 := 1234 } 79 none).1.eeprom.offset =
        -(1234 : Int) ∧
     (handleCommand { baseState with ADCVal0 := 1234 } 79 none).1.fADCOffset =
        ((-(1234 : Int) : Int) : Rat) / (nSample : Rat) ∧
     ∀ t : MeterState, (completeWindow t).1.ADCVal0 = t.win.sum) :=
  ⟨Or.inl rfl, captureOffset_correct { baseState with ADCVal0 := 1234 } 79 none
    (Or.inl rfl)⟩

/-- C10: issuing the capture-offset command before any window has completed
since reset: `ADCVal0` is still its zero-initialized value after `setup`, so
`O`/`o` sets the offset to exactly 0, persists 0, and reports plain success
(echo, confirmation line, prompt) with no error or warning, whatever the
EEPROM held at boot. -/
theorem captureOffset_fresh_boot (e : EEPROM) (tok : Option Rat) :
    (handleCommand (setup e) 79 tok).1.ADCOffset = 0 ∧
    (handleCommand (setup e) 79 tok).1.eeprom.offset = 0 ∧
    (handleCommand (setup e) 79 tok).2 =
      [Event.echo 79, Event.line "Offset captured and saved.", Event.prompt] ∧
    (handleCommand (setup e) 111 tok).1.ADCOffset = 0 ∧
    (handleCommand (setup e) 111 tok).1.eeprom.offset = 0 ∧
    (handleCommand (setup e) 111 tok).2 =
      [Event.echo 111, Event.line "Offset captured and saved.", Event.prompt] := by
  have h0 : (setup e).ADCVal0 = 0 := by simp [setup, initGlobals]
  refine ⟨?_, ?_, ?_, ?_, ?_, ?_⟩ <;> simp [handleCommand, h0]

/-- C7: at boot, when the sentinel read from the programmed-flag address is
not `EEPROMFlag`, `setup` writes the defaults (sentinel, offset 0, scale
factor 1.0) through to the store, and the subsequent read-back yields those
defaults in memory (`ADCOffset = 0`, `ADCCal = 1`, `fADCOffset = 0`,
`VScale = 1 * VFull / ADCFull`); `setup` always returns a running state, so
the condition is never fatal. -/
theorem setup_writes_defaults (e : EEPROM) (h : e.flag ≠ EEPROMFlag) :
    (setup e).eeprom = { flag := EEPROMFlag, cal := 1, offset := 0 } ∧
    (setup e).ADCOffset = 0 ∧
    (setup e).ADCCal = 1 ∧
    (setup e).fADCOffset = 0 ∧
    (setup e).VScale = 1 * VFull / ADCFull := by
  refine ⟨?_, ?_, ?_, ?_, ?_⟩ <;> simp [setup, initGlobals, h]

/-- C7 witness: booting from a blank (zeroed) EEPROM. -/
theorem setup_writes_defaults_witness :
    ({ flag := 0, cal := 5, offset := 7 } : EEPROM).flag ≠ EEPROMFlag ∧
    ((setup { flag := 0, cal := 5, offset := 7 }).eeprom =
        { flag := EEPROMFlag, cal := 1, offset := 0 } ∧
     (setup { flag := 0, cal := 5, offset := 7 }).ADCOffset = 0 ∧
     (setup { flag := 0, cal := 5, offset := 7 }).ADCCal = 1 ∧
     (setup { flag := 0, cal := 5, offset := 7 }).fADCOffset = 0 ∧
     (setup { flag := 0, cal := 5, offset := 7 }).VScale = 1 * VFull / ADCFull) :=
  ⟨by decide, setup_writes_defaults { flag := 0, cal := 5, offset := 7 }
    (by decide)⟩

/-- C5: when the scale-factor sub-dialog's numeric read fails to parse
(`tok = none`) or the value exceeds the accepted bound 10000, `Set_Scale`
mutates nothing — `ADCCal`, `VScale` and the persisted store are untouched
because the whole state is returned unchanged — and the rejection is
reported. -/
theorem Set_Scale_rejects (s : MeterState) (tok : Option Rat)
    (h : tok = none ∨ ∃ x, tok = some x ∧ 10000 < |x|) :
    (Set_Scale s tok).1 = s ∧
    (Set_Scale s tok).2 =
      [Event.line "Enter scale factor",
       Event.line "Scale factor not updated = "] := by
  rcases h with rfl | ⟨x, rfl, hb⟩
  · simp [Set_Scale, getFloat]
  · simp [Set_Scale, getFloat, hb]

lemma ite_neg_abs (a : Rat) : (if a < 0 then -a else a) = |a| := by
  rcases lt_or_le a 0 with h | h
  · rw [if_pos h, abs_of_neg h]
  · rw [if_neg (not_lt.mpr h), abs_of_nonneg h]

lemma getLast_cons_concat (a p : Event) (l : List Event) :
    (a :: (l ++ [p])).getLast? = some p := by
  rw [← List.cons_append]
  exact List.getLast?_concat _

/-- A state one sample away from completing its window: default calibration,
zero offset, logging on. -/
def nearFullState : MeterState :=
  { baseState with
      win := { sum := 100, count := 429, high := 5, low := -3 }
      SerialDisplay := true }

/-- C1: at every window completion (`count` reaches `nSample`), the
calibrated reading is `Amps = VScale * ((sum + ADCOffset) / count)` with the
sum-plus-offset divided by the count by truncating integer division before
the float scale is applied; the sign LED is high exactly when `Amps < 0` and
the display shows the magnitude; and the logged `high`/`low` voltages are
`VScale * (max + ADCOffset/nSample)` and `VScale * (min + ADCOffset/nSample)`
(the per-sample offset). -/
theorem computeReading_correct (s : MeterState) (v : Int)
    (hc : s.win.count + 1 = nSample)
    (hoff : s.fADCOffset = (s.ADCOffset : Rat) / (nSample : Rat)) :
    (processSample s v).1.Amps =
      s.VScale *
        ((Int.tdiv ((accum s.win v).sum + s.ADCOffset) (nSample : Int) : Int) : Rat) ∧
    ((processSample s v).1.negLED = true ↔ (processSample s v).1.Amps < 0) ∧
    (processSample s v).1.displayed = |(processSample s v).1.Amps| ∧
    (s.SerialDisplay = true →
      ∃ r : LogRecord,
        (processSample s v).2 = some (accum s.win v, some r) ∧
        r.high = s.VScale *
          (((accum s.win v).high : Rat) + (s.ADCOffset : Rat) / (nSample : Rat)) ∧
        r.low = s.VScale *
          (((accum s.win v).low : Rat) + (s.ADCOffset : Rat) / (nSample : Rat))) := by
  rw [processSample_complete s v hc, completeWindow_eq]
  have hcnt : (accum s.win v).count = nSample := by simp [accum]; omega
  refine ⟨by simp [cwAmps, hcnt], by simp, by simp [ite_neg_abs], ?_⟩
  intro hsd
  refine ⟨cwRecord { s with ADCVal := v, win := accum s.win v }, ?_, ?_, ?_⟩
  · simp [hsd]
  · simp [cwRecord, hoff]
  · simp [cwRecord, hoff]

/-- C1 witness: completing a window from a concrete state one sample short. -/
theorem computeReading_correct_witness :
    nearFullState.win.count + 1 = nSample ∧
    nearFullState.fADCOffset =
      (nearFullState.ADCOffset : Rat) / (nSample : Rat) ∧
    ((processSample nearFullState 7).1.Amps =
      nearFullState.VScale *
        ((Int.tdiv ((accum nearFullState.win 7).sum + nearFullState.ADCOffset)
          (nSample : Int) : Int) : Rat) ∧
    ((processSample nearFullState 7).1.negLED = true ↔
      (processSample nearFullState 7).1.Amps < 0) ∧
    (processSample nearFullState 7).1.displayed =
      |(processSample nearFullState 7).1.Amps| ∧
    (nearFullState.SerialDisplay = true →
      ∃ r : LogRecord,
        (processSample nearFullState 7).2 =
          some (accum nearFullState.win 7, some r) ∧
        r.high = nearFullState.VScale *
          (((accum nearFullState.win 7).high : Rat) +
            (nearFullState.ADCOffset : Rat) / (nSample : Rat)) ∧
        r.low = nearFullState.VScale *
          (((accum nearFullState.win 7).low : Rat) +
            (nearFullState.ADCOffset : Rat) / (nSample : Rat)))) :=
  ⟨by decide, rfl,
   computeReading_correct nearFullState 7 (by decide) rfl⟩

/-- C2: for every sequence of `nSample` raw samples in the 16-bit code range
consumed one per ready-flag observation from a fresh window, exactly one
window is handed off; its sum is the arithmetic sum of the samples, its count
is `nSample`, and its max/min are true extrema of the sequence (members of
the sequence bounding every element), whatever the order of the samples. -/
theorem aggregator_correct (s : MeterState) (vs : List Int)
    (hwin : s.win = initWindow) (hlen : vs.length = nSample)
    (hrange : ∀ v ∈ vs, -32768 ≤ v ∧ v ≤ 32767) :
    (runSamples s vs).2.map Prod.fst = [List.foldl accum s.win vs] ∧
    (List.foldl accum s.win vs).sum = vs.sum ∧
    (List.foldl accum s.win vs).count = nSample ∧
    (List.foldl accum s.win vs).high ∈ vs ∧
    (∀ v ∈ vs, v ≤ (List.foldl accum s.win vs).high) ∧
    (List.foldl accum s.win vs).low ∈ vs ∧
    (∀ v ∈ vs, (List.foldl accum s.win vs).low ≤ v) := by
  have hne : vs ≠ [] := by
    intro h; rw [h] at hlen; simp [nSample] at hlen
  obtain ⟨hsum, hcnt, hhigh, hlow⟩ := foldl_accum_spec vs s.win
  obtain ⟨hmax1, hmax2⟩ := foldl_max_bounds vs s.win.high
  obtain ⟨hmin1, hmin2⟩ := foldl_min_bounds vs s.win.low
  refine ⟨?_, ?_, ?_, ?_, ?_, ?_, ?_⟩
  · exact runSamples_single_completion vs s
      (by rw [hwin]; simpa [initWindow] using hlen) hne
  · rw [hsum, hwin]; simp [initWindow]
  · rw [hcnt, hwin, hlen]; simp [initWindow]
  · rw [hhigh]
    rcases foldl_max_mem vs s.win.high with h | h
    · obtain ⟨v0, hv0⟩ := List.exists_mem_of_ne_nil vs hne
      have hb : v0 ≤ List.foldl max s.win.high vs := hmax2 v0 hv0
      have hr : -32768 ≤ v0 := (hrange v0 hv0).1
      have hwh : s.win.high = -32768 := by rw [hwin]; rfl
      have hv0e : v0 = -32768 := le_antisymm (by rw [h, hwh] at hb; exact hb) hr
      rw [h, hwh, ← hv0e]
      exact hv0
    · exact h
  · intro v hv; rw [hhigh]; exact hmax2 v hv
  · rw [hlow]
    rcases foldl_min_mem vs s.win.low with h | h
    · obtain ⟨v0, hv0⟩ := List.exists_mem_of_ne_nil vs hne
      have hb : List.foldl min s.win.low vs ≤ v0 := hmin2 v0 hv0
      have hr : v0 ≤ 32767 := (hrange v0 hv0).2
      have hwl : s.win.low = 32767 := by rw [hwin]; rfl
      have hv0e : v0 = 32767 := le_antisymm hr (by rw [h, hwl] at hb; exact hb)
      rw [h, hwl, ← hv0e]
      exact hv0
    · exact h
  · intro v hv; rw [hlow]; exact hmin2 v hv

/-- C2 witness: a full window of 430 identical in-range samples fed to the
freshly booted state. -/
theorem aggregator_correct_witness :
    baseState.win = initWindow ∧
    (List.replicate 430 (5 : Int)).length = nSample ∧
    (∀ v ∈ List.replicate 430 (5 : Int), -32768 ≤ v ∧ v ≤ 32767) ∧
    ((runSamples baseState (List.replicate 430 (5 : Int))).2.map Prod.fst =
        [List.foldl accum baseState.win (List.replicate 430 (5 : Int))] ∧
     (List.foldl accum baseState.win (List.replicate 430 (5 : Int))).sum =
        (List.replicate 430 (5 : Int)).sum ∧
     (List.foldl accum baseState.win (List.replicate 430 (5 : Int))).count =
        nSample ∧
     (List.foldl accum baseState.win (List.replicate 430 (5 : Int))).high ∈
        List.replicate 430 (5 : Int) ∧
     (∀ v ∈ List.replicate 430 (5 : Int),
        v ≤ (List.foldl accum baseState.win (List.replicate 430 (5 : Int))).high) ∧
     (List.foldl accum baseState.win (List.replicate 430 (5 : Int))).low ∈
        List.replicate 430 (5 : Int) ∧
     (∀ v ∈ List.replicate 430 (5 : Int),
        (List.foldl accum baseState.win (List.replicate 430 (5 : Int))).low ≤ v)) :=
  ⟨rfl, by rw [List.length_replicate]; rfl,
   by
     intro v hv
     rw [List.eq_of_mem_replicate hv]
     exact ⟨by norm_num, by norm_num⟩,
   aggregator_correct baseState (List.replicate 430 (5 : Int)) rfl
     (by rw [List.length_replicate]; rfl)
     (by
       intro v hv
       rw [List.eq_of_mem_replicate hv]
       exact ⟨by norm_num, by norm_num⟩)⟩

/-- C4 counterexample fixture: a programmed EEPROM holding offset sum 430. -/
def e430 : EEPROM := { flag := 12345, cal := 1, offset := 430 }

/-- C4 counterexample fixture: boot from `e430`, then toggle logging on with
the `s` command. -/
def sLogging : MeterState := (handleCommand (setup e430) 115 none).1

set_option maxRecDepth 10000 in
/-- C4 counterexample: feed 430 zero samples after booting with offset sum
430 and logging enabled.  The completed window's raw (uncorrected) sum is 0
and its count 430, so the claimed first field — the mean raw code
`0 / 430 = 0` — differs from the emitted record's first field, which is 1:
`Print_Data` runs after line 170 has folded `ADCOffset` into `ADCValSum`, so
the first field is the offset-corrected mean. -/
theorem logRecord_first_field_claim_false :
    (runSamples sLogging (List.replicate 430 0)).2.map
        (fun c => (c.1.sum, c.1.count, c.2.map LogRecord.meanField)) =
      [(0, 430, some 1)] ∧
    Int.tdiv 0 430 = 0 ∧ (1 : Int) ≠ 0 :=
  ⟨by decide, by decide, by decide⟩

/-- C4 (amended): the first field of each emitted log record is the mean
offset-corrected code of the completed window — `(sum + ADCOffset) / count`
with truncating integer division — followed by amps, high, low, and the
high-minus-low delta. -/
theorem logRecord_fields (s : MeterState) (v : Int)
    (hc : s.win.count + 1 = nSample) (hsd : s.SerialDisplay = true) :
    ∃ r : LogRecord,
      (processSample s v).2 = some (accum s.win v, some r) ∧
      r.meanField =
        Int.tdiv ((accum s.win v).sum + s.ADCOffset) (nSample : Int) ∧
      r.amps = (processSample s v).1.Amps ∧
      r.high = s.VScale * (((accum s.win v).high : Rat) + s.fADCOffset) ∧
      r.low = s.VScale * (((accum s.win v).low : Rat) + s.fADCOffset) ∧
      r.delta = r.high - r.low := by
  rw [processSample_complete s v hc, completeWindow_eq]
  have hcnt : (accum s.win v).count = nSample := by simp [accum]; omega
  refine ⟨cwRecord { s with ADCVal := v, win := accum s.win v },
    ?_, ?_, ?_, ?_, ?_, ?_⟩
  · simp [hsd]
  · simp [cwRecord, hcnt]
  · simp [cwRecord]
  · simp [cwRecord]
  · simp [cwRecord]
  · simp [cwRecord]

/-- C4 (amended) witness: the record emitted when `nearFullState` completes
its window. -/
theorem logRecord_fields_witness :
    nearFullState.win.count + 1 = nSample ∧
    nearFullState.SerialDisplay = true ∧
    (∃ r : LogRecord,
      (processSample nearFullState 7).2 =
        some (accum nearFullState.win 7, some r) ∧
      r.meanField =
        Int.tdiv ((accum nearFullState.win 7).sum + nearFullState.ADCOffset)
          (nSample : Int) ∧
      r.amps = (processSample nearFullState 7).1.Amps ∧
      r.high = nearFullState.VScale *
        (((accum nearFullState.win 7).high : Rat) + nearFullState.fADCOffset) ∧
      r.low = nearFullState.VScale *
        (((accum nearFullState.win 7).low : Rat) + nearFullState.fADCOffset) ∧
      r.delta = r.high - r.low) :=
  ⟨by decide, by decide, logRecord_fields nearFullState 7 (by decide) rfl⟩

/-- C9: every recognized command byte other than the logging toggle ends its
output with the interactive prompt; the `S`/`s` toggle instead flips
`SerialDisplay` and emits exactly the log header, with no prompt, leaving all
calibration state (`ADCCal`, `ADCOffset`, `VScale`, `fADCOffset`, and the
EEPROM) untouched. -/
theorem command_prompt_discipline (s : MeterState) (c : Int) (tok : Option Rat)
    (hrec : recognizedCmd c = true) :
    (c ≠ 83 → c ≠ 115 →
      (handleCommand s c tok).2.getLast? = some Event.prompt) ∧
    ((c = 83 ∨ c = 115) →
      (handleCommand s c tok).1.SerialDisplay = !s.SerialDisplay ∧
      (handleCommand s c tok).1.ADCCal = s.ADCCal ∧
      (handleCommand s c tok).1.ADCOffset = s.ADCOffset ∧
      (handleCommand s c tok).1.VScale = s.VScale ∧
      (handleCommand s c tok).1.fADCOffset = s.fADCOffset ∧
      (handleCommand s c tok).1.eeprom = s.eeprom ∧
      (handleCommand s c tok).2 = Display_Header (!s.SerialDisplay) ∧
      Event.prompt ∉ (handleCommand s c tok).2) := by
  have hc : c = 13 ∨ c = 10 ∨ c = 63 ∨ c = 47 ∨ c = 72 ∨ c = 104 ∨ c = 71 ∨
      c = 103 ∨ c = 75 ∨ c = 107 ∨ c = 41 ∨ c = 33 ∨ c = 79 ∨ c = 111 ∨
      c = 80 ∨ c = 112 ∨ c = 83 ∨ c = 115 := by
    simpa [recognizedCmd, or_assoc] using hrec
  rcases hc with rfl | rfl | rfl | rfl | rfl | rfl | rfl | rfl | rfl | rfl |
    rfl | rfl | rfl | rfl | rfl | rfl | rfl | rfl
  all_goals first
  | (refine ⟨fun h1 _ => absurd rfl h1, fun _ => ?_⟩
     simp [handleCommand, prompt_not_in_header])
  | (refine ⟨fun _ h2 => absurd rfl h2, fun _ => ?_⟩
     simp [handleCommand, prompt_not_in_header])
  | (refine ⟨fun _ _ => ?_, fun hS => by rcases hS with h | h <;> norm_num at h⟩
     first
     | (simp only [handleCommand]
        norm_num
        exact getLast_cons_concat _ _ _)
     | simp [handleCommand])

/-- C9 witness: the parameter-display command (`P` = 80) ends with the prompt
and the toggle clause holds vacuously. -/
theorem command_prompt_discipline_witness :
    recognizedCmd 80 = true ∧
    (((80 : Int) ≠ 83 → (80 : Int) ≠ 115 →
      (handleCommand baseState 80 none).2.getLast? = some Event.prompt) ∧
    (((80 : Int) = 83 ∨ (80 : Int) = 115) →
      (handleCommand baseState 80 none).1.SerialDisplay = !baseState.SerialDisplay ∧
      (handleCommand baseState 80 none).1.ADCCal = baseState.ADCCal ∧
      (handleCommand baseState 80 none).1.ADCOffset = baseState.ADCOffset ∧
      (handleCommand baseState 80 none).1.VScale = baseState.VScale ∧
      (handleCommand baseState 80 none).1.fADCOffset = baseState.fADCOffset ∧
      (handleCommand baseState 80 none).1.eeprom = baseState.eeprom ∧
      (handleCommand baseState 80 none).2 =
        Display_Header (!baseState.SerialDisplay) ∧
      Event.prompt ∉ (handleCommand baseState 80 none).2)) :=
  ⟨by decide, command_prompt_discipline baseState 80 none (by decide)⟩

/-- C5 witness: rejecting the out-of-bound token `20000`. -/
theorem Set_Scale_rejects_witness :
    ((some (20000 : Rat) = none) ∨
      ∃ x, some (20000 : Rat) = some x ∧ 10000 < |x|) ∧
    ((Set_Scale baseState (some 20000)).1 = baseState ∧
     (Set_Scale baseState (some 20000)).2 =
       [Event.line "Enter scale factor",
        Event.line "Scale factor not updated = "]) :=
  ⟨Or.inr ⟨20000, rfl, by norm_num⟩,
   Set_Scale_rejects baseState (some 20000)
     (Or.inr ⟨20000, rfl, by norm_num⟩)⟩

end CurrentMeter
